import Mathlib

/-!
Shallow embedding of the ELF self-play training controller
(`src_cpp/elfgames/go/train/ctrl_selfplay.h`) and the remote batch slot
(`src_cpp/elf/distri/feature.h`).

C++ `float` values (rewards, per-ply values, thresholds) are modelled as
rationals `ℚ`: every operation the embedded code performs on them is a
comparison, `min`/`max`, or addition of exact constants, so the rational
model computes the same branch decisions as any exact reading of the
source. `size_t`/`int` counters are modelled as `ℤ` (or `ℕ` where the
source value is a container size); the `size_t` wrap-around of
`stats.n += delta` never engages in reachable states because the proved
window invariant keeps every counter inside `[0, histSize]`.
-/

/-- Modelled from the spec: the `Request` message (declared in
`go_game_specific.h`, not under `src/`): version pair with a self-play tag,
assigned resign threshold, never-resign probability and async flag. -/
structure Request where
  black_ver : ℤ
  white_ver : ℤ
  is_selfplay : Bool
  resign_thres : ℚ
  never_resign_prob : ℚ
  async : Bool
  deriving Repr, DecidableEq

/-- Modelled from the spec: the `Result` message (declared outside `src/`):
reward, never-resign flag, per-ply value sequence, move count. -/
structure Result where
  reward : ℚ
  never_resign : Bool
  values : List ℚ
  num_move : ℤ
  deriving Repr, DecidableEq

/-- Modelled from the spec: an opaque buffered game record; the controller
only appends it to a pending buffer and flushes the buffer at checkpoints,
so its payload is irrelevant and kept abstract as a numeric id. -/
abbrev Record := ℕ

/-- The aggregate counters kept incrementally over the calibration window
(`NRStats` in `ctrl_selfplay.h`): `fp`, `n`, `blackWin` range over the
current window; `total_n`, `totalBlackWin` over all never-resign games. -/
structure NRStats where
  fp : ℤ
  n : ℤ
  blackWin : ℤ
  total_n : ℤ
  totalBlackWin : ℤ
  deriving Repr, DecidableEq

def NRStats.init : NRStats := ⟨0, 0, 0, 0, 0⟩

/-- `NRStats::feed`: counts one never-resign game, and a black win when the
reward is positive. -/
def NRStats.feed (s : NRStats) (value : ℚ) : NRStats :=
  { s with
    total_n := s.total_n + 1
    totalBlackWin := if value > 0 then s.totalBlackWin + 1 else s.totalBlackWin }

/-- One calibration sample (`NRItem`): the minimum value the eventual winner
saw, the false-positive flag and the winner colour. -/
structure NRItem where
  minValue : ℚ
  fp : Bool
  blackWin : Bool
  deriving Repr, DecidableEq

/-- The positions `0, 2, 4, …` of a list: the subsequence the C++ loop
`for (i = start; i < n; i += 2)` visits when it starts at index 0. -/
def everyOther : List ℚ → List ℚ
  | [] => []
  | [x] => [x]
  | x :: _ :: rest => x :: everyOther rest

/-- The winner's own sign-normalized value entries: even indices when black
won (mapped through `1 + v`), odd indices when white won (mapped through
`1 - v`), exactly the values the `NRItem` constructor loop folds over. -/
def winnerEntries (blackWin : Bool) (values : List ℚ) : List ℚ :=
  (everyOther (if blackWin then values else values.drop 1)).map
    (fun v => if blackWin then 1 + v else 1 - v)

/-- `NRItem::NRItem(request, result)`: the winner colour from the reward
sign, the minimum of `2.0` and the winner's normalized entries, and the
false-positive flag when the assigned threshold exceeds that minimum. -/
def mkNRItem (request : Request) (result : Result) : NRItem :=
  let blackWin : Bool := decide (result.reward > 0)
  let minValue : ℚ := (winnerEntries blackWin result.values).foldl min 2
  { minValue := minValue
    fp := decide (request.resign_thres > minValue)
    blackWin := blackWin }

/-- `NRItem::changeStat`: applies `delta` to the windowed aggregates, to the
`fp` and `blackWin` counters only when the item carries the flag. -/
def NRItem.changeStat (item : NRItem) (stats : NRStats) (delta : ℤ) : NRStats :=
  { stats with
    n := stats.n + delta
    fp := if item.fp then stats.fp + delta else stats.fp
    blackWin := if item.blackWin then stats.blackWin + delta else stats.blackWin }

/-- `ResignThresholdCalculator`: its configuration, current threshold,
global counters, the calibration window (head = oldest, matching the
`std::deque` front) and the incremental window aggregates. -/
structure ResignThresholdCalculator where
  histSize : ℕ
  falsePositiveTarget : ℚ
  curThreshold : ℚ
  minThreshold : ℚ
  maxThreshold : ℚ
  numGamesFed : ℕ
  numGamesFedBlackWin : ℕ
  winnerMinValues : List NRItem
  nr_stats : NRStats
  deriving Repr, DecidableEq

namespace ResignThresholdCalculator

/-- The calculator constructor: stores the configuration, starts the
threshold at `initialThreshold`, with empty window and zeroed counters. -/
def create (histSize : ℕ) (falsePositiveTarget initialThreshold minThreshold
    maxThreshold : ℚ) : ResignThresholdCalculator :=
  { histSize := histSize
    falsePositiveTarget := falsePositiveTarget
    curThreshold := initialThreshold
    minThreshold := minThreshold
    maxThreshold := maxThreshold
    numGamesFed := 0
    numGamesFedBlackWin := 0
    winnerMinValues := []
    nr_stats := NRStats.init }

/-- The constructor's `assert`s: positive window capacity, a usable
false-positive target, and `0 ≤ min ≤ max ≤ 2` for the clamp bounds. -/
def ctorAssertsOk (c : ResignThresholdCalculator) : Prop :=
  0 < c.histSize ∧
  1 / 1000000 < c.falsePositiveTarget ∧ c.falsePositiveTarget < 1 - 1 / 1000000 ∧
  0 ≤ c.minThreshold ∧ c.minThreshold ≤ c.maxThreshold ∧ c.maxThreshold ≤ 2

instance (c : ResignThresholdCalculator) : Decidable c.ctorAssertsOk := by
  unfold ctorAssertsOk; infer_instance

/-- The `while (size >= histSize)` eviction loop of `feedWinnerMinvalue`:
pops the oldest item, applying the inverse delta to the aggregates first. -/
def evictWhileFull (histSize : ℕ) :
    List NRItem → NRStats → List NRItem × NRStats
  | [], stats => ([], stats)
  | front :: rest, stats =>
    if (front :: rest).length ≥ histSize then
      evictWhileFull histSize rest (front.changeStat stats (-1))
    else (front :: rest, stats)

/-- `feedWinnerMinvalue`: evict while at capacity, push the new item at the
back, apply its `+1` delta to the aggregates. -/
def feedWinnerMinvalue (c : ResignThresholdCalculator) (item : NRItem) :
    ResignThresholdCalculator :=
  let (window, stats) := evictWhileFull c.histSize c.winnerMinValues c.nr_stats
  { c with
    winnerMinValues := window ++ [item]
    nr_stats := item.changeStat stats 1 }

/-- `ResignThresholdCalculator::feed`: always counts the game (and a black
win for positive reward); returns before touching calibration state unless
the result is a never-resign game, in which case the derived sample is fed
into the window. -/
def feed (c : ResignThresholdCalculator) (request : Request) (result : Result) :
    ResignThresholdCalculator :=
  let c :=
    { c with
      numGamesFed := c.numGamesFed + 1
      numGamesFedBlackWin :=
        if result.reward > 0 then c.numGamesFedBlackWin + 1
        else c.numGamesFedBlackWin }
  if !result.never_resign then c
  else
    let c := { c with nr_stats := c.nr_stats.feed result.reward }
    c.feedWinnerMinvalue (mkNRItem request result)

/-- The order-statistic index `static_cast<size_t>(fpTarget * window.size())`
of `updateThreshold` (truncation of a nonnegative product = floor). -/
def position (c : ResignThresholdCalculator) : ℕ :=
  (⌊c.falsePositiveTarget * c.winnerMinValues.length⌋).toNat

/-- `updateThreshold(maxDelta)`: boundary no-op when the order-statistic
index is `< 2` or within 2 of the window size; otherwise adopt the
`position_`-th smallest window minimum-value (the `nth_element`
post-condition, modelled by indexing the sorted copy), clamp to
`old ± maxDelta` and then to `[minThreshold, maxThreshold]`.
Returns the updated calculator and the returned threshold. -/
def updateThreshold (c : ResignThresholdCalculator) (maxDelta : ℚ) :
    ResignThresholdCalculator × ℚ :=
  if c.position < 2 ∨ c.position + 2 ≥ c.winnerMinValues.length then
    (c, c.curThreshold)
  else
    let sorted := (c.winnerMinValues.map NRItem.minValue).mergeSort
    let candidate := sorted.getD c.position 0
    let t1 := min candidate (c.curThreshold + maxDelta)
    let t2 := max t1 (c.curThreshold - maxDelta)
    let t3 := max t2 c.minThreshold
    let t4 := min t3 c.maxThreshold
    ({ c with curThreshold := t4 }, t4)

/-- The default argument `maxDelta = 0.01` of `updateThreshold`. -/
def defaultMaxDelta : ℚ := 1 / 100

end ResignThresholdCalculator

/-- Modelled from the spec: the training options consumed by the self-play
controller (declared in `go_game_specific.h`, not under `src/`): checkpoint
schedule, async flag and the resign-calculator configuration. -/
structure GameOptionsTrain where
  selfplay_init_num : ℤ
  selfplay_update_num : ℤ
  selfplay_async : Bool
  resign_target_hist_size : ℕ
  resign_target_fp_rate : ℚ
  resign_thres : ℚ
  resign_thres_lower_bound : ℚ
  resign_thres_upper_bound : ℚ
  deriving Repr, DecidableEq

/-- `SelfPlayRecord` (spec: *PerVersionRecord*): per-version statistics,
pending record buffer, episode counter, weight-update counter and the
resign-threshold snapshot assigned at creation. -/
structure SelfPlayRecord where
  ver : ℤ
  options : GameOptionsTrain
  records : List Record
  black_win : ℤ
  white_win : ℤ
  n_black_resign : ℤ
  n_white_resign : ℤ
  move0_100 : ℤ
  move100_200 : ℤ
  move200_300 : ℤ
  move300_up : ℤ
  counter : ℤ
  last_counter_shown : ℤ
  num_weight_update : ℤ
  resign_threshold : ℚ
  deriving Repr, DecidableEq

namespace SelfPlayRecord

/-- The `SelfPlayRecord` constructor: zeroed statistics, empty buffer,
resign threshold initialised to `0.0`. -/
def create (ver : ℤ) (options : GameOptionsTrain) : SelfPlayRecord :=
  { ver := ver
    options := options
    records := []
    black_win := 0
    white_win := 0
    n_black_resign := 0
    n_white_resign := 0
    move0_100 := 0
    move100_200 := 0
    move200_300 := 0
    move300_up := 0
    counter := 0
    last_counter_shown := 0
    num_weight_update := 0
    resign_threshold := 0 }

/-- `SelfPlayRecord::feed`: win/resign/move-bucket counters, episode
counter, pending-buffer append; the periodic `info()` printing is a pure
side effect tracked only through `last_counter_shown`. -/
def feed (r : SelfPlayRecord) (result : Result) (record : Record) :
    SelfPlayRecord :=
  let r :=
    if result.reward > 0 then { r with black_win := r.black_win + 1 }
    else { r with white_win := r.white_win + 1 }
  let r :=
    if |result.reward - 1| < 1 / 10 then
      { r with n_white_resign := r.n_white_resign + 1 }
    else if |result.reward + 1| < 1 / 10 then
      { r with n_black_resign := r.n_black_resign + 1 }
    else r
  let r := { r with counter := r.counter + 1, records := r.records ++ [record] }
  let r :=
    if result.num_move < 100 then { r with move0_100 := r.move0_100 + 1 }
    else if result.num_move < 200 then { r with move100_200 := r.move100_200 + 1 }
    else if result.num_move < 300 then { r with move200_300 := r.move200_300 + 1 }
    else { r with move300_up := r.move300_up + 1 }
  if r.counter - r.last_counter_shown ≥ 100 then
    { r with last_counter_shown := r.counter }
  else r

/-- `SelfPlayRecord::is_check_point`: with a configured schedule
(`init > 0` and `update > 0`), true at `counter == init` and whenever
`counter > init` with `(counter - init) % update == 0`; otherwise true at
positive multiples of 1000. -/
def is_check_point (r : SelfPlayRecord) : Bool :=
  if r.options.selfplay_init_num > 0 ∧ r.options.selfplay_update_num > 0 then
    r.counter = r.options.selfplay_init_num ∨
      (r.counter > r.options.selfplay_init_num ∧
        (r.counter - r.options.selfplay_init_num) %
            r.options.selfplay_update_num = 0)
  else
    r.counter > 0 ∧ r.counter % 1000 = 0

/-- `SelfPlayRecord::checkAndSave`: at a checkpoint, flush (externally) and
clear the pending buffer, reporting that a flush happened. -/
def checkAndSave (r : SelfPlayRecord) : SelfPlayRecord × Bool :=
  if r.is_check_point then ({ r with records := [] }, true) else (r, false)

/-- `SelfPlayRecord::needWaitForMoreSample`: no gate when
`selfplay_init_num ≤ 0`; gated below `init`; past `init`, no gate when
`update ≤ 0`, else gated below `init + update * num_weight_update`. -/
def needWaitForMoreSample (r : SelfPlayRecord) : Bool :=
  if r.options.selfplay_init_num ≤ 0 then false
  else if r.counter < r.options.selfplay_init_num then true
  else if r.options.selfplay_update_num ≤ 0 then false
  else
    r.counter <
      r.options.selfplay_init_num +
        r.options.selfplay_update_num * r.num_weight_update

/-- `SelfPlayRecord::notifyWeightUpdate`. -/
def notifyWeightUpdate (r : SelfPlayRecord) : SelfPlayRecord :=
  { r with num_weight_update := r.num_weight_update + 1 }

end SelfPlayRecord

/-- Modelled from the spec: the controller's feed outcome codes (the
`FeedResult` enum lives in `ctrl_utils.h`, not under `src/`; the four
values used by `SelfPlaySubCtrl::feed` are these). -/
inductive FeedResult where
  | NOT_SELFPLAY
  | VERSION_MISMATCH
  | NOT_REQUESTED
  | FEEDED
  deriving Repr, DecidableEq

/-- `SelfPlaySubCtrl::CtrlResult`. -/
inductive CtrlResult where
  | VERSION_OLD
  | VERSION_INVALID
  | INSUFFICIENT_SAMPLE
  | SUFFICIENT_SAMPLE
  deriving Repr, DecidableEq

/-- `SelfPlaySubCtrl` (spec: *SelfPlayController*): active version (`-1`
before any model), the per-version record map and the shared calculator.
The `std::unordered_map` is modelled as an association list keyed by
version; the mutex serialises every operation, so each public method is one
state transition. -/
structure SelfPlaySubCtrl where
  options : GameOptionsTrain
  curr_ver : ℤ
  perfs : ℤ → Option SelfPlayRecord
  resignThresholdCalculator : ResignThresholdCalculator
  total_selfplay : ℤ

namespace SelfPlaySubCtrl

/-- The `SelfPlaySubCtrl` constructor: version `-1`, no records, calculator
built from the resign-threshold options. -/
def create (options : GameOptionsTrain) : SelfPlaySubCtrl :=
  { options := options
    curr_ver := -1
    perfs := fun _ => none
    resignThresholdCalculator := ResignThresholdCalculator.create
      options.resign_target_hist_size
      options.resign_target_fp_rate
      options.resign_thres
      options.resign_thres_lower_bound
      options.resign_thres_upper_bound
    total_selfplay := 0 }

/-- `find_or_null`: map lookup, `none` when the version was never sent. -/
def find_or_null (s : SelfPlaySubCtrl) (ver : ℤ) : Option SelfPlayRecord :=
  s.perfs ver

/-- Store (insert or overwrite) the record for a version in the map
(`perfs_[ver].reset(record)` / in-place mutation through the pointer). -/
def setRecord (s : SelfPlaySubCtrl) (ver : ℤ) (r : SelfPlayRecord) :
    SelfPlaySubCtrl :=
  { s with perfs := fun w => if w = ver then some r else s.perfs w }

/-- `find_or_create`: return the state unchanged when the version already
has a record; otherwise create one and assign it the value returned by
`resignThresholdCalculator_.updateThreshold()` (the default `maxDelta`),
a call that also updates the calculator itself. -/
def find_or_create (s : SelfPlaySubCtrl) (ver : ℤ) : SelfPlaySubCtrl :=
  match s.find_or_null ver with
  | some _ => s
  | none =>
    let record := SelfPlayRecord.create ver s.options
    let p :=
      s.resignThresholdCalculator.updateThreshold
        ResignThresholdCalculator.defaultMaxDelta
    let record := { record with resign_threshold := p.2 }
    { (s.setRecord ver record) with resignThresholdCalculator := p.1 }

/-- `SelfPlaySubCtrl::setCurrModel`: no-op returning `false` when the
version is unchanged, otherwise switch, `find_or_create`, return `true`. -/
def setCurrModel (s : SelfPlaySubCtrl) (ver : ℤ) : SelfPlaySubCtrl × Bool :=
  if ver ≠ s.curr_ver then
    let s := { s with curr_ver := ver }
    (s.find_or_create ver, true)
  else (s, false)

/-- `SelfPlaySubCtrl::feed`: feed the calculator first, unconditionally;
then classify the request (not self-play / version mismatch / no record)
or route the result to the active version's record, run `checkAndSave`,
and report `FEEDED`. -/
def feed (s : SelfPlaySubCtrl) (request : Request) (result : Result)
    (r : Record) : SelfPlaySubCtrl × FeedResult :=
  let s := { s with resignThresholdCalculator := s.resignThresholdCalculator.feed request result }
  if !request.is_selfplay then (s, FeedResult.NOT_SELFPLAY)
  else if s.curr_ver ≠ request.black_ver then (s, FeedResult.VERSION_MISMATCH)
  else
    match s.find_or_null request.black_ver with
    | none => (s, FeedResult.NOT_REQUESTED)
    | some perf =>
      let perf := perf.feed result r
      let s := { s with total_selfplay := s.total_selfplay + 1 }
      let (perf, _) := perf.checkAndSave
      (s.setRecord request.black_ver perf, FeedResult.FEEDED)

/-- `SelfPlaySubCtrl::needWaitForMoreSample`: stale version, then missing
record, then the active record's sufficiency answer. -/
def needWaitForMoreSample (s : SelfPlaySubCtrl) (selfplay_ver : ℤ) :
    CtrlResult :=
  if selfplay_ver < s.curr_ver then CtrlResult.VERSION_OLD
  else
    match s.find_or_null s.curr_ver with
    | none => CtrlResult.VERSION_INVALID
    | some perf =>
      if perf.needWaitForMoreSample then CtrlResult.INSUFFICIENT_SAMPLE
      else CtrlResult.SUFFICIENT_SAMPLE

/-- `SelfPlaySubCtrl::notifyCurrentWeightUpdate` (the `assert` on a present
record is modelled by leaving the state unchanged when absent). -/
def notifyCurrentWeightUpdate (s : SelfPlaySubCtrl) : SelfPlaySubCtrl :=
  match s.find_or_null s.curr_ver with
  | none => s
  | some perf => s.setRecord s.curr_ver perf.notifyWeightUpdate

end SelfPlaySubCtrl

/-- `SharedMemRemote::Mode`: receive a whole shared-memory batch per
message, or one batch entry per message. -/
inductive SMMode where
  | RECV_SMEM
  | RECV_ENTRY
  deriving Repr, DecidableEq

/-- `SharedMemRemote` (spec: *BatchSlot*): the per-sample remote buffers
(slice contents modelled as the last serialized message applied to each),
the cyclic fill cursor `next_remote_smem_` and the slot's inbound message
queue (head = next to pop; `remote::Queue` itself is code outside `src/`,
modelled from the spec as a FIFO whose consumer blocks while it is empty). -/
structure SharedMemRemote where
  mode : SMMode
  batchSize : ℕ
  remote_smem : List (Option String)
  next_remote_smem : ℕ
  q : List String
  deriving Repr, DecidableEq

namespace SharedMemRemote

/-- The `SharedMemRemote` constructor: one remote buffer for the whole batch
in `RECV_SMEM` mode, one per batch entry in `RECV_ENTRY` mode; cursor at 0,
queue empty. -/
def create (mode : SMMode) (batchSize : ℕ) : SharedMemRemote :=
  { mode := mode
    batchSize := batchSize
    remote_smem :=
      match mode with
      | SMMode.RECV_SMEM => [none]
      | SMMode.RECV_ENTRY => List.replicate batchSize none
    next_remote_smem := 0
    q := [] }

/-- `SharedMemRemote::push`: enqueue one serialized update. -/
def push (s : SharedMemRemote) (msg : String) : SharedMemRemote :=
  { s with q := s.q ++ [msg] }

/-- The `do { pop; fill } while (cursor < size)` loop of
`waitBatchFillMem`, modelled with the blocking pop as partiality: `none`
means the consumer is still blocked waiting for a producer. -/
def fillLoop (s : SharedMemRemote) : Option SharedMemRemote :=
  match h : s.q with
  | [] => none
  | msg :: rest =>
    let s' : SharedMemRemote :=
      { s with
        q := rest
        remote_smem := s.remote_smem.set s.next_remote_smem (some msg)
        next_remote_smem := s.next_remote_smem + 1 }
    if s'.next_remote_smem < s'.remote_smem.length then fillLoop s'
    else some s'
  termination_by s.q.length
  decreasing_by simp [h]

/-- `SharedMemRemote::waitBatchFillMem`: run the fill loop to completion
and reset the cursor to zero (the `Stats` feed is telemetry only). -/
def waitBatchFillMem (s : SharedMemRemote) : Option SharedMemRemote :=
  (fillLoop s).map (fun s' => { s' with next_remote_smem := 0 })

end SharedMemRemote

/-! ### Concrete fixtures used by witnesses and counterexamples -/

/-- Training options with the spec's example schedule `initial = 100`,
`update = 50`; calculator window capacity 10, false-positive target `1/2`,
initial threshold `1/10`, clamp bounds `[0, 1]`. -/
def testOptions : GameOptionsTrain :=
  { selfplay_init_num := 100
    selfplay_update_num := 50
    selfplay_async := false
    resign_target_hist_size := 10
    resign_target_fp_rate := 1 / 2
    resign_thres := 1 / 10
    resign_thres_lower_bound := 0
    resign_thres_upper_bound := 1 }

/-- A self-play request for version 0 carrying resign threshold `1/10`. -/
def testRequest : Request :=
  { black_ver := 0
    white_ver := -1
    is_selfplay := true
    resign_thres := 1 / 10
    never_resign_prob := 1 / 10
    async := false }

/-- A never-resign black win whose only (even-index) value entry `-1/2`
normalizes to winner value `1/2`. -/
def testResult : Result :=
  { reward := 1
    never_resign := true
    values := [-1 / 2]
    num_move := 50 }

/-- A never-resign white win with a single value entry: index 0 is black's,
so the winner (white, odd indices) has no entries at all. -/
def testResultWhite : Result :=
  { reward := -1
    never_resign := true
    values := [1 / 2]
    num_move := 30 }

/-- The controller right after `setCurrModel(0)` on a fresh instance. -/
def testCtrl0 : SelfPlaySubCtrl :=
  ((SelfPlaySubCtrl.create testOptions).setCurrModel 0).1

/-- The controller after six self-play games were fed: the calibration
window holds six samples of minimum-value `1/2`. -/
def testCtrl6 : SelfPlaySubCtrl :=
  (List.replicate 6 ()).foldl (fun s _ => (s.feed testRequest testResult 7).1)
    testCtrl0

/-- The calculator inside `testCtrl6`: six-sample window, threshold still
at its initial `1/10`. -/
def testCalc6 : ResignThresholdCalculator :=
  testCtrl6.resignThresholdCalculator

/-- The window aggregate invariant of the calculator (spec §3): the window
never exceeds the capacity and each windowed counter is exactly the
corresponding sum over the samples currently in the window. -/
def windowInvariant (c : ResignThresholdCalculator) : Prop :=
  c.winnerMinValues.length ≤ c.histSize ∧
  c.nr_stats.n = c.winnerMinValues.length ∧
  c.nr_stats.fp = (c.winnerMinValues.filter (fun i => i.fp)).length ∧
  c.nr_stats.blackWin = (c.winnerMinValues.filter (fun i => i.blackWin)).length

instance (c : ResignThresholdCalculator) : Decidable (windowInvariant c) := by
  unfold windowInvariant; infer_instance

/-! ### Theorems -/

-- Let witnesses and counterexamples evaluate concrete rational arithmetic
-- with `decide`.
unseal Rat.add Rat.mul Rat.sub Rat.inv List.merge List.mergeSort

/-- **C6**: `is_check_point` is true when the episode counter equals the
configured initial-sample threshold or, with both an initial threshold and
an update increment configured, whenever `counter - initial` is a positive
multiple of `update`; with no explicit schedule configured it is true
exactly at positive multiples of 1000; for `initial = 100, update = 50` it
is true exactly at counts `{100, 150, 200, …}`. -/
theorem C6_is_check_point_spec (r : SelfPlayRecord) :
    (0 < r.options.selfplay_init_num ∧ 0 < r.options.selfplay_update_num →
      (r.is_check_point = true ↔
        r.counter = r.options.selfplay_init_num ∨
          (0 < r.counter - r.options.selfplay_init_num ∧
            r.options.selfplay_update_num ∣
              (r.counter - r.options.selfplay_init_num)))) ∧
    (¬(0 < r.options.selfplay_init_num ∧ 0 < r.options.selfplay_update_num) →
      (r.is_check_point = true ↔ 0 < r.counter ∧ (1000 : ℤ) ∣ r.counter)) ∧
    (r.options.selfplay_init_num = 100 → r.options.selfplay_update_num = 50 →
      (r.is_check_point = true ↔
        100 ≤ r.counter ∧ (50 : ℤ) ∣ (r.counter - 100))) := by
  unfold SelfPlayRecord.is_check_point
  refine ⟨fun h => ?_, fun h => ?_, fun h1 h2 => ?_⟩
  · rw [if_pos h]
    simp only [decide_eq_true_eq]
    constructor
    · rintro (h0 | ⟨hgt, hmod⟩)
      · exact Or.inl h0
      · exact Or.inr ⟨by omega, Int.dvd_of_emod_eq_zero hmod⟩
    · rintro (h0 | ⟨hpos, hdvd⟩)
      · exact Or.inl h0
      · exact Or.inr ⟨by omega, Int.emod_eq_zero_of_dvd hdvd⟩
  · rw [if_neg h]
    simp only [decide_eq_true_eq]
    omega
  · rw [if_pos (by omega : (0:ℤ) < r.options.selfplay_init_num ∧ 0 < r.options.selfplay_update_num), h1, h2]
    simp only [decide_eq_true_eq]
    omega

/-- Closed witness for **C6** at `initial = 100, update = 50, counter = 150`. -/
theorem C6_is_check_point_witness :
    ({ SelfPlayRecord.create 3 testOptions with counter := 150 }
      : SelfPlayRecord).is_check_point = true :=
  ((C6_is_check_point_spec _).2.2 rfl rfl).mpr (by decide)

/-- **C3**: `updateThreshold` computes `k = ⌊falsePositiveTarget * windowSize⌋`;
when `k < 2` or `k + 2 ≥ windowSize` it returns the current threshold with
the calculator unmodified; otherwise the candidate it adopts before
clamping is exactly the `k`-th order statistic (the entry at index `k` of
any sorted arrangement) of the window members' minimum values. -/
theorem C3_updateThreshold_candidate (c : ResignThresholdCalculator)
    (maxDelta : ℚ) :
    (c.position < 2 ∨ c.winnerMinValues.length ≤ c.position + 2 →
      c.updateThreshold maxDelta = (c, c.curThreshold)) ∧
    (2 ≤ c.position → c.position + 2 < c.winnerMinValues.length →
      ∀ l : List ℚ, l.Perm (c.winnerMinValues.map NRItem.minValue) →
        l.Sorted (· ≤ ·) →
        (c.updateThreshold maxDelta).2 =
          min (max (max (min (l.getD c.position 0)
            (c.curThreshold + maxDelta)) (c.curThreshold - maxDelta))
            c.minThreshold) c.maxThreshold ∧
        (c.updateThreshold maxDelta).1 =
          { c with curThreshold := (c.updateThreshold maxDelta).2 }) := by
  constructor
  · intro h
    unfold ResignThresholdCalculator.updateThreshold
    rw [if_pos (by omega)]
  · intro h1 h2 l hperm hsorted
    have hl : l = (c.winnerMinValues.map NRItem.minValue).mergeSort :=
      List.eq_of_perm_of_sorted
        (hperm.trans (List.mergeSort_perm _ _).symm) hsorted
        (List.sorted_mergeSort' _)
    subst hl
    unfold ResignThresholdCalculator.updateThreshold
    rw [if_neg (by omega)]
    exact ⟨rfl, rfl⟩

/-- Closed witness for **C3** on the six-sample window of `testCalc6`
(`k = 3`, candidate `1/2`, clamped result `11/100`). -/
theorem C3_updateThreshold_witness :
    (testCalc6.updateThreshold (1 / 100)).2 = 11 / 100 := by
  have h := (C3_updateThreshold_candidate testCalc6 (1 / 100)).2
    (by decide) (by decide) (List.replicate 6 (1 / 2)) (by decide) (by decide)
  rw [h.1]
  decide

/-- **C2** (amended): provided `maxDelta` is nonnegative and the current
threshold already lies in `[minThreshold, maxThreshold]` (the code does not
check the configured initial threshold against the bounds, and the boundary
no-op returns it as is), `updateThreshold(maxDelta)` moves the threshold by
at most `maxDelta` and lands in `[minThreshold, maxThreshold]`; the
returned value is the post-call threshold. -/
theorem C2_updateThreshold_clamped (c : ResignThresholdCalculator)
    (maxDelta : ℚ) (hd : 0 ≤ maxDelta)
    (hlo : c.minThreshold ≤ c.curThreshold)
    (hhi : c.curThreshold ≤ c.maxThreshold) :
    |(c.updateThreshold maxDelta).1.curThreshold - c.curThreshold| ≤ maxDelta ∧
    c.minThreshold ≤ (c.updateThreshold maxDelta).1.curThreshold ∧
    (c.updateThreshold maxDelta).1.curThreshold ≤ c.maxThreshold ∧
    (c.updateThreshold maxDelta).2 =
      (c.updateThreshold maxDelta).1.curThreshold := by
  unfold ResignThresholdCalculator.updateThreshold
  split
  · simpa using ⟨by positivity, hlo, hhi⟩
  · set x := c.curThreshold with hx
    set cand := ((c.winnerMinValues.map NRItem.minValue).mergeSort).getD
      c.position 0 with hcand
    simp only
    have h1 : min cand (x + maxDelta) ≤ x + maxDelta := min_le_right _ _
    have h2 : max (min cand (x + maxDelta)) (x - maxDelta) ≤ x + maxDelta :=
      max_le h1 (by linarith)
    have h3 : max (max (min cand (x + maxDelta)) (x - maxDelta))
        c.minThreshold ≤ x + maxDelta := max_le h2 (by linarith)
    have h4 : min (max (max (min cand (x + maxDelta)) (x - maxDelta))
        c.minThreshold) c.maxThreshold ≤ x + maxDelta :=
      le_trans (min_le_left _ _) h3
    have g2 : x - maxDelta ≤ max (min cand (x + maxDelta)) (x - maxDelta) :=
      le_max_right _ _
    have g3 : x - maxDelta ≤ max (max (min cand (x + maxDelta))
        (x - maxDelta)) c.minThreshold := le_trans g2 (le_max_left _ _)
    have g4 : x - maxDelta ≤ min (max (max (min cand (x + maxDelta))
        (x - maxDelta)) c.minThreshold) c.maxThreshold :=
      le_min g3 (by linarith)
    have b1 : c.minThreshold ≤ min (max (max (min cand (x + maxDelta))
        (x - maxDelta)) c.minThreshold) c.maxThreshold :=
      le_min (le_max_right _ _) (by linarith)
    have b2 : min (max (max (min cand (x + maxDelta)) (x - maxDelta))
        c.minThreshold) c.maxThreshold ≤ c.maxThreshold := min_le_right _ _
    exact ⟨abs_le.mpr ⟨by linarith, by linarith⟩, b1, b2, trivial⟩

/-- Closed witness for **C2** on `testCalc6` (threshold moves from `1/10`
to `11/100`, inside `[0, 1]`). -/
theorem C2_updateThreshold_witness :
    |(testCalc6.updateThreshold (1 / 100)).1.curThreshold -
        testCalc6.curThreshold| ≤ 1 / 100 ∧
    testCalc6.minThreshold ≤
      (testCalc6.updateThreshold (1 / 100)).1.curThreshold ∧
    (testCalc6.updateThreshold (1 / 100)).1.curThreshold ≤
      testCalc6.maxThreshold :=
  let h := C2_updateThreshold_clamped testCalc6 (1 / 100)
    (by decide) (by decide) (by decide)
  ⟨h.1, h.2.1, h.2.2.1⟩

/-- Counterexample to **C2** as stated: the constructor never checks the
configured initial threshold against `[minThreshold, maxThreshold]`
(its asserts pass here), and the boundary no-op returns it unchanged, so
`updateThreshold` on this reachable calculator yields a threshold outside
the interval. -/
theorem C2_counterexample :
    (ResignThresholdCalculator.create 1 (1 / 2) (3 / 2) 0 1).ctorAssertsOk ∧
    ¬(((ResignThresholdCalculator.create 1 (1 / 2) (3 / 2) 0 1).updateThreshold
          (1 / 100)).1.curThreshold ≤
        (ResignThresholdCalculator.create 1 (1 / 2) (3 / 2) 0 1).maxThreshold) := by
  decide

/-- `SelfPlayRecord::feed` never touches the resign-threshold snapshot. -/
theorem SelfPlayRecord.feed_resign_threshold (r : SelfPlayRecord)
    (result : Result) (rec : Record) :
    (r.feed result rec).resign_threshold = r.resign_threshold := by
  simp [SelfPlayRecord.feed, apply_ite (SelfPlayRecord.resign_threshold)]

/-- `SelfPlayRecord::checkAndSave` never touches the snapshot either. -/
theorem SelfPlayRecord.checkAndSave_resign_threshold (r : SelfPlayRecord) :
    (r.checkAndSave).1.resign_threshold = r.resign_threshold := by
  simp only [SelfPlayRecord.checkAndSave]
  split_ifs <;> rfl

/-- **C1** (amended): `setCurrModel(version)` is a no-op returning `false`
when the version is unchanged; otherwise it switches the active version and
returns `true`, creating a `PerVersionRecord` only when absent — assigning
the new record the value *returned by `updateThreshold()`*, a call that may
itself move the calculator's threshold (by up to the default `maxDelta`),
rather than a pure read of it; records' snapshots are fixed at creation and
are never changed retroactively by `setCurrModel` or `feed`. -/
theorem C1_setCurrModel_spec (s : SelfPlaySubCtrl) (v : ℤ) :
    (v = s.curr_ver → s.setCurrModel v = (s, false)) ∧
    (v ≠ s.curr_ver →
      (s.setCurrModel v).2 = true ∧
      (s.setCurrModel v).1.curr_ver = v ∧
      (∀ r, s.find_or_null v = some r →
        (s.setCurrModel v).1 = { s with curr_ver := v }) ∧
      (s.find_or_null v = none →
        (s.setCurrModel v).1.resignThresholdCalculator =
          (s.resignThresholdCalculator.updateThreshold
            ResignThresholdCalculator.defaultMaxDelta).1 ∧
        (s.setCurrModel v).1.find_or_null v =
          some { SelfPlayRecord.create v s.options with
                  resign_threshold :=
                    (s.resignThresholdCalculator.updateThreshold
                      ResignThresholdCalculator.defaultMaxDelta).2 }) ∧
      (∀ w r, s.find_or_null w = some r →
        ∃ r', (s.setCurrModel v).1.find_or_null w = some r' ∧
          r'.resign_threshold = r.resign_threshold)) ∧
    (∀ request result rec w r, s.find_or_null w = some r →
      ∃ r', (s.feed request result rec).1.find_or_null w = some r' ∧
        r'.resign_threshold = r.resign_threshold) := by
  refine ⟨fun h => ?_, fun h => ?_, ?_⟩
  · simp [SelfPlaySubCtrl.setCurrModel, h]
  · unfold SelfPlaySubCtrl.setCurrModel
    rw [if_pos h]
    unfold SelfPlaySubCtrl.find_or_create
    simp only [SelfPlaySubCtrl.find_or_null] at *
    rcases hv : s.perfs v with _ | r0
    · refine ⟨by trivial, by trivial, fun r hr => absurd hr (by simp),
        fun _ => ⟨rfl, ?_⟩, fun w r hw => ⟨r, ?_, rfl⟩⟩
      · simp [SelfPlaySubCtrl.find_or_null, SelfPlaySubCtrl.setRecord]
      · have hwv : ¬(w = v) := fun hc => by rw [hc] at hw; rw [hw] at hv; cases hv
        simpa [SelfPlaySubCtrl.find_or_null, SelfPlaySubCtrl.setRecord, hwv]
          using hw
    · exact ⟨by trivial, by trivial, fun r hr => rfl,
        fun hnone => absurd hnone (by simp),
        fun w r hw => ⟨r, hw, rfl⟩⟩
  · intro request result rec w r hw
    unfold SelfPlaySubCtrl.feed
    dsimp only
    split
    · exact ⟨r, hw, rfl⟩
    · split
      · exact ⟨r, hw, rfl⟩
      · simp only [SelfPlaySubCtrl.find_or_null] at *
        rcases hcur : s.perfs request.black_ver with _ | rc
        · exact ⟨r, hw, rfl⟩
        · by_cases hw_eq : w = request.black_ver
          · subst hw_eq
            refine ⟨((rc.feed result rec).checkAndSave).1, ?_, ?_⟩
            · simp [SelfPlaySubCtrl.find_or_null, SelfPlaySubCtrl.setRecord]
            · have hrc : r = rc := by rw [hw] at hcur; exact Option.some_inj.mp hcur
              rw [SelfPlayRecord.checkAndSave_resign_threshold,
                SelfPlayRecord.feed_resign_threshold, hrc]
          · refine ⟨r, ?_, rfl⟩
            simpa [SelfPlaySubCtrl.find_or_null, SelfPlaySubCtrl.setRecord, hw_eq]
              using hw

/-- Counterexample to **C1** as stated: on the reachable controller
`testCtrl6` (fresh instance, `setCurrModel(0)`, six fed games), switching
to the unseen version 1 runs `updateThreshold()` through `find_or_create`
and the calculator's own threshold moves from `1/10` to `11/100` — the
creation-time assignment is not a read that leaves it unchanged. -/
theorem C1_counterexample :
    testCtrl6.find_or_null 1 = none ∧
    (testCtrl6.setCurrModel 1).2 = true ∧
    (testCtrl6.setCurrModel 1).1.resignThresholdCalculator.curThreshold ≠
      testCtrl6.resignThresholdCalculator.curThreshold := by
  decide

/-- Closed witness for **C1** at `testCtrl6`, switching to version 1. -/
theorem C1_setCurrModel_witness :
    (testCtrl6.setCurrModel 1).2 = true ∧
    (testCtrl6.setCurrModel 1).1.find_or_null 1 =
      some { SelfPlayRecord.create 1 testCtrl6.options with
              resign_threshold :=
                (testCtrl6.resignThresholdCalculator.updateThreshold
                  ResignThresholdCalculator.defaultMaxDelta).2 } :=
  let h := (C1_setCurrModel_spec testCtrl6 1).2.1 (by decide)
  ⟨h.1, (h.2.2.2.1 (by decide)).2⟩

/-- The eviction loop keeps the aggregates exact: starting from exact
counters it returns the suffix that fits under the capacity, with the
counters exact for that suffix and the lifetime totals untouched. -/
theorem evictWhileFull_spec (histSize : ℕ) :
    ∀ (q : List NRItem) (st : NRStats),
      st.n = (q.length : ℤ) →
      st.fp = ((q.filter fun i => i.fp).length : ℤ) →
      st.blackWin = ((q.filter fun i => i.blackWin).length : ℤ) →
      ∀ q' st',
        ResignThresholdCalculator.evictWhileFull histSize q st = (q', st') →
        q' = q.drop (q.length - (histSize - 1)) ∧
        st'.n = (q'.length : ℤ) ∧
        st'.fp = ((q'.filter fun i => i.fp).length : ℤ) ∧
        st'.blackWin = ((q'.filter fun i => i.blackWin).length : ℤ) ∧
        st'.total_n = st.total_n ∧ st'.totalBlackWin = st.totalBlackWin := by
  intro q
  induction q with
  | nil =>
    intro st hn hfp hbw q' st' heq
    simp only [ResignThresholdCalculator.evictWhileFull, Prod.mk.injEq] at heq
    obtain ⟨h1, h2⟩ := heq
    subst h1; subst h2
    simpa using ⟨hn, hfp, hbw⟩
  | cons f rest ih =>
    intro st hn hfp hbw q' st' heq
    rw [ResignThresholdCalculator.evictWhileFull] at heq
    by_cases hcap : (f :: rest).length ≥ histSize
    · rw [if_pos hcap] at heq
      simp only [List.length_cons] at hcap hn
      have hn' : (f.changeStat st (-1)).n = (rest.length : ℤ) := by
        simp only [NRItem.changeStat]
        push_cast at hn ⊢
        omega
      have hfp' : (f.changeStat st (-1)).fp =
          ((rest.filter fun i => i.fp).length : ℤ) := by
        by_cases hf : f.fp <;>
          simp_all [NRItem.changeStat, List.filter_cons] <;> push_cast at * <;>
          omega
      have hbw' : (f.changeStat st (-1)).blackWin =
          ((rest.filter fun i => i.blackWin).length : ℤ) := by
        by_cases hb : f.blackWin <;>
          simp_all [NRItem.changeStat, List.filter_cons] <;> push_cast at * <;>
          omega
      obtain ⟨e1, e2, e3, e4, e5, e6⟩ := ih _ hn' hfp' hbw' q' st' heq
      have hidx : (f :: rest).length - (histSize - 1) =
          (rest.length - (histSize - 1)) + 1 := by
        simp only [List.length_cons]
        omega
      refine ⟨?_, e2, e3, e4, ?_, ?_⟩
      · rw [hidx, List.drop_succ_cons]
        exact e1
      · rw [e5]; simp [NRItem.changeStat]
      · rw [e6]; simp [NRItem.changeStat]
    · rw [if_neg hcap] at heq
      simp only [Prod.mk.injEq] at heq
      obtain ⟨h1, h2⟩ := heq
      subst h1; subst h2
      have : (f :: rest).length - (histSize - 1) = 0 := by
        simp only [List.length_cons] at hcap ⊢
        omega
      rw [this, List.drop_zero]
      exact ⟨rfl, hn, hfp, hbw, rfl, rfl⟩

/-- One `feed` call preserves the window invariant (given the positive
capacity the constructor asserts). -/
theorem feed_windowInvariant (c : ResignThresholdCalculator)
    (request : Request) (result : Result) (hh : 0 < c.histSize)
    (h : windowInvariant c) : windowInvariant (c.feed request result) := by
  obtain ⟨hlen, hn, hfp, hbw⟩ := h
  unfold ResignThresholdCalculator.feed
  dsimp only
  split
  · exact ⟨hlen, hn, hfp, hbw⟩
  · unfold ResignThresholdCalculator.feedWinnerMinvalue
    rcases hev : ResignThresholdCalculator.evictWhileFull c.histSize
      c.winnerMinValues (c.nr_stats.feed result.reward) with ⟨q', st'⟩
    obtain ⟨e1, e2, e3, e4, _, _⟩ :=
      evictWhileFull_spec c.histSize c.winnerMinValues
        (c.nr_stats.feed result.reward)
        (by simpa [NRStats.feed] using hn)
        (by simpa [NRStats.feed] using hfp)
        (by simpa [NRStats.feed] using hbw) q' st' hev
    dsimp only [windowInvariant]
    have hq'len : q'.length ≤ c.histSize - 1 := by
      rw [e1]
      simp only [List.length_drop]
      omega
    set item := mkNRItem request result with hitem
    refine ⟨?_, ?_, ?_, ?_⟩
    · simp only [List.length_append, List.length_cons, List.length_nil]
      omega
    · simp only [NRItem.changeStat, List.length_append, List.length_cons,
        List.length_nil, e2]
      push_cast
      ring
    · by_cases hf : item.fp <;>
        simp [NRItem.changeStat, hf, List.filter_append, e3] <;> push_cast <;>
        ring
    · by_cases hb : item.blackWin <;>
        simp [NRItem.changeStat, hb, List.filter_append, e4] <;> push_cast <;>
        ring

/-- `feed` never changes the configured capacity. -/
theorem feed_histSize (c : ResignThresholdCalculator) (request : Request)
    (result : Result) : (c.feed request result).histSize = c.histSize := by
  unfold ResignThresholdCalculator.feed
    ResignThresholdCalculator.feedWinnerMinvalue
  dsimp only
  split
  · rfl
  · rfl

/-- **C4**: after every sequence of `feed` calls from a freshly constructed
calculator (capacity `H > 0` as asserted), the window holds at most `H`
samples and each windowed aggregate counter (`n`, false-positive count,
black-win count) equals exactly the corresponding sum over the samples in
the window; moreover on a full window a never-resign feed evicts the
oldest sample (the front) and appends the new one at the back. -/
theorem C4_window_aggregates (hist : ℕ) (fpt initT mn mx : ℚ)
    (inputs : List (Request × Result)) (hh : 0 < hist) :
    windowInvariant (inputs.foldl (fun c ir => c.feed ir.1 ir.2)
      (ResignThresholdCalculator.create hist fpt initT mn mx)) ∧
    (∀ c : ResignThresholdCalculator, windowInvariant c → 0 < c.histSize →
      c.winnerMinValues.length = c.histSize →
      ∀ request result, result.never_resign = true →
        (c.feed request result).winnerMinValues =
          c.winnerMinValues.tail ++ [mkNRItem request result]) := by
  constructor
  · have main : ∀ (l : List (Request × Result)) (c : ResignThresholdCalculator),
        0 < c.histSize → windowInvariant c →
        windowInvariant (l.foldl (fun c ir => c.feed ir.1 ir.2) c) := by
      intro l
      induction l with
      | nil => intro c _ hc; exact hc
      | cons p rest ih =>
        intro c hpos hc
        exact ih _ (by rw [feed_histSize]; exact hpos)
          (feed_windowInvariant c p.1 p.2 hpos hc)
    exact main inputs _ (by simpa [ResignThresholdCalculator.create] using hh)
      (by simp [windowInvariant, ResignThresholdCalculator.create, NRStats.init])
  · intro c hc hpos hfull request result hnr
    obtain ⟨hlen, hn, hfp, hbw⟩ := hc
    unfold ResignThresholdCalculator.feed
    dsimp only
    rw [hnr]
    simp only [Bool.not_true, Bool.false_eq_true, if_false]
    unfold ResignThresholdCalculator.feedWinnerMinvalue
    rcases hev : ResignThresholdCalculator.evictWhileFull c.histSize
      c.winnerMinValues (c.nr_stats.feed result.reward) with ⟨q', st'⟩
    obtain ⟨e1, _, _, _, _, _⟩ :=
      evictWhileFull_spec c.histSize c.winnerMinValues
        (c.nr_stats.feed result.reward)
        (by simpa [NRStats.feed] using hn)
        (by simpa [NRStats.feed] using hfp)
        (by simpa [NRStats.feed] using hbw) q' st' hev
    dsimp only
    rw [e1, hfull]
    have : c.histSize - (c.histSize - 1) = 1 := by omega
    rw [this, List.drop_one]

/-- Closed witness for **C4**: capacity 2, three feeds (the third evicts
the oldest), aggregates exact. -/
theorem C4_window_witness :
    0 < 2 ∧
    windowInvariant ([(testRequest, testResult), (testRequest, testResultWhite),
        (testRequest, testResult)].foldl (fun c ir => c.feed ir.1 ir.2)
      (ResignThresholdCalculator.create 2 (1 / 2) (1 / 10) 0 1)) :=
  ⟨by decide,
    (C4_window_aggregates 2 (1 / 2) (1 / 10) 0 1
      [(testRequest, testResult), (testRequest, testResultWhite),
        (testRequest, testResult)] (by decide)).1⟩

/-- Membership in `everyOther`: exactly the values at even indices. -/
theorem mem_everyOther : ∀ (l : List ℚ) (x : ℚ),
    x ∈ everyOther l ↔ ∃ i, i < l.length ∧ i % 2 = 0 ∧ l.getD i 0 = x
  | [], x => by simp [everyOther]
  | [a], x => by
    simp only [everyOther, List.mem_singleton, List.length_singleton]
    constructor
    · rintro rfl
      exact ⟨0, by omega, by omega, rfl⟩
    · rintro ⟨i, hi, hmod, hget⟩
      interval_cases i
      simpa using hget.symm
  | a :: b :: rest, x => by
    have ih := mem_everyOther rest x
    simp only [everyOther, List.mem_cons, List.length_cons]
    constructor
    · rintro (rfl | hx)
      · exact ⟨0, by omega, by omega, rfl⟩
      · obtain ⟨i, hi, hmod, hget⟩ := ih.mp hx
        exact ⟨i + 2, by omega, by omega, by simpa using hget⟩
    · rintro ⟨i, hi, hmod, hget⟩
      match i with
      | 0 => exact Or.inl hget.symm
      | 1 => omega
      | (k + 2) =>
        exact Or.inr (ih.mpr ⟨k, by omega, by omega, by simpa using hget⟩)

/-- Membership in the winner's normalized entries: exactly the
sign-normalized values at the winner's indices (even for black, odd for
white). -/
theorem mem_winnerEntries (bw : Bool) (vs : List ℚ) (x : ℚ) :
    x ∈ winnerEntries bw vs ↔
      ∃ i, i < vs.length ∧ i % 2 = (if bw then 0 else 1) ∧
        (if bw then 1 + vs.getD i 0 else 1 - vs.getD i 0) = x := by
  cases bw
  · simp only [winnerEntries, if_false, Bool.false_eq_true, List.mem_map]
    cases vs with
    | nil => simp [everyOther]
    | cons a rest =>
      simp only [List.drop_succ_cons, List.drop_zero, List.length_cons]
      constructor
      · rintro ⟨y, hy, rfl⟩
        obtain ⟨j, hj, hmod, hget⟩ := (mem_everyOther rest y).mp hy
        exact ⟨j + 1, by omega, by omega, by simpa using hget⟩
      · rintro ⟨i, hi, hmod, hx⟩
        match i with
        | 0 => omega
        | (j + 1) =>
          refine ⟨rest.getD j 0, (mem_everyOther rest _).mpr
            ⟨j, by omega, by omega, rfl⟩, by simpa using hx⟩
  · simp only [winnerEntries, if_true, List.mem_map]
    constructor
    · rintro ⟨y, hy, rfl⟩
      obtain ⟨i, hi, hmod, hget⟩ := (mem_everyOther vs y).mp hy
      exact ⟨i, hi, by omega, by simpa [List.getD_eq_getElem?_getD] using hget⟩
    · rintro ⟨i, hi, hmod, hx⟩
      exact ⟨vs.getD i 0, (mem_everyOther vs _).mpr ⟨i, hi, by omega, rfl⟩,
        by simpa using hx⟩

/-- A left fold of `min` lands on its seed or one of the elements. -/
theorem foldl_min_mem : ∀ (l : List ℚ) (a : ℚ), l.foldl min a ∈ a :: l
  | [], a => by simp
  | b :: t, a => by
    simp only [List.foldl_cons, List.mem_cons]
    rcases List.mem_cons.mp (foldl_min_mem t (min a b)) with h | h
    · rcases min_choice a b with hm | hm
      · exact Or.inl (h.trans hm)
      · exact Or.inr (Or.inl (h.trans hm))
    · exact Or.inr (Or.inr h)

/-- A left fold of `min` is a lower bound of its seed and elements. -/
theorem foldl_min_le : ∀ (l : List ℚ) (a : ℚ),
    l.foldl min a ≤ a ∧ ∀ x ∈ l, l.foldl min a ≤ x
  | [], a => by simp
  | b :: t, a => by
    obtain ⟨h1, h2⟩ := foldl_min_le t (min a b)
    simp only [List.foldl_cons, List.mem_cons]
    refine ⟨le_trans h1 (min_le_left _ _), ?_⟩
    rintro x (rfl | hx)
    · exact le_trans h1 (min_le_right _ _)
    · exact h2 x hx

/-- **C5** (amended): `feed(request, result)` always increments the
total-games counter (and the black-win counter exactly when the reward is
positive); when `never_resign` is false it returns without changing the
calibration window or its aggregates; otherwise the sample it appends to
the window carries the winner colour, a false-positive flag set exactly
when the assigned resign threshold strictly exceeds its minimum value, and
a minimum value that is the least element of the sentinel `2.0` together
with the winner's own sign-normalized entries (even indices if black won,
odd if white won) — i.e. the winner-entry minimum capped at `2.0`. -/
theorem C5_feed_spec (c : ResignThresholdCalculator) (request : Request)
    (result : Result) :
    (c.feed request result).numGamesFed = c.numGamesFed + 1 ∧
    ((c.feed request result).numGamesFedBlackWin =
      if 0 < result.reward then c.numGamesFedBlackWin + 1
      else c.numGamesFedBlackWin) ∧
    (result.never_resign = false →
      (c.feed request result).winnerMinValues = c.winnerMinValues ∧
      (c.feed request result).nr_stats = c.nr_stats) ∧
    (result.never_resign = true →
      ∃ item : NRItem,
        (c.feed request result).winnerMinValues.getLast? = some item ∧
        item.minValue ∈ (2 : ℚ) ::
          winnerEntries (decide (0 < result.reward)) result.values ∧
        (∀ x ∈ (2 : ℚ) ::
            winnerEntries (decide (0 < result.reward)) result.values,
          item.minValue ≤ x) ∧
        (item.fp = true ↔ request.resign_thres > item.minValue) ∧
        item.blackWin = decide (0 < result.reward) ∧
        (∀ x : ℚ,
          x ∈ winnerEntries (decide (0 < result.reward)) result.values ↔
            ∃ i, i < result.values.length ∧
              i % 2 = (if 0 < result.reward then 0 else 1) ∧
              (if 0 < result.reward then 1 + result.values.getD i 0
               else 1 - result.values.getD i 0) = x)) := by
  refine ⟨?_, ?_, fun hnr => ?_, fun hnr => ?_⟩
  · unfold ResignThresholdCalculator.feed
      ResignThresholdCalculator.feedWinnerMinvalue
    dsimp only
    split
    · rfl
    · rfl
  · unfold ResignThresholdCalculator.feed
      ResignThresholdCalculator.feedWinnerMinvalue
    dsimp only
    split
    · rfl
    · rfl
  · unfold ResignThresholdCalculator.feed
    rw [hnr]
    exact ⟨rfl, rfl⟩
  · unfold ResignThresholdCalculator.feed
    dsimp only
    rw [hnr]
    simp only [Bool.not_true, Bool.false_eq_true, if_false]
    unfold ResignThresholdCalculator.feedWinnerMinvalue
    rcases hev : ResignThresholdCalculator.evictWhileFull c.histSize
      c.winnerMinValues (c.nr_stats.feed result.reward) with ⟨q', st'⟩
    refine ⟨mkNRItem request result, by simp, ?_, ?_, ?_, rfl, ?_⟩
    · exact foldl_min_mem _ _
    · intro x hx
      rcases List.mem_cons.mp hx with rfl | hx
      · exact (foldl_min_le _ _).1
      · exact (foldl_min_le _ _).2 x hx
    · simp [mkNRItem]
    · intro x
      rw [mem_winnerEntries]
      simp only [decide_eq_true_eq]

/-- Counterexample to **C5** as stated: a never-resign black win whose only
winner entry normalizes to `5/2 > 2`: the inserted sample's minimum value
is the sentinel `2`, not the minimum `5/2` over the winner's own entries. -/
theorem C5_counterexample :
    (((ResignThresholdCalculator.create 10 (1 / 2) (1 / 10) 0 1).feed
          testRequest
          { reward := 1, never_resign := true, values := [3 / 2],
            num_move := 50 }).winnerMinValues.map
        NRItem.minValue).getLast? = some 2 ∧
    winnerEntries (decide ((0 : ℚ) < 1)) [3 / 2] = [5 / 2] ∧
    ¬((2 : ℚ) = 5 / 2) := by
  decide

/-- Closed witness for **C5** on a fresh calculator fed `testResult`. -/
theorem C5_feed_witness :
    ∃ item : NRItem,
      (((ResignThresholdCalculator.create 10 (1 / 2) (1 / 10) 0 1).feed
          testRequest testResult).winnerMinValues.getLast? = some item) ∧
      item.minValue ∈ (2 : ℚ) ::
        winnerEntries (decide ((0 : ℚ) < testResult.reward))
          testResult.values ∧
      (∀ x ∈ (2 : ℚ) ::
          winnerEntries (decide ((0 : ℚ) < testResult.reward))
            testResult.values,
        item.minValue ≤ x) ∧
      (item.fp = true ↔ testRequest.resign_thres > item.minValue) ∧
      item.blackWin = decide ((0 : ℚ) < testResult.reward) := by
  obtain ⟨item, h1, h2, h3, h4, h5, _⟩ :=
    (C5_feed_spec (ResignThresholdCalculator.create 10 (1 / 2) (1 / 10) 0 1)
      testRequest testResult).2.2.2 (by decide)
  exact ⟨item, h1, h2, h3, h4, h5⟩

/-- **C10**: for a never-resign result whose value sequence has no entries
at the winner's own indices, `feed` still appends a calibration sample to
the window; that sample's minimum value is the sentinel `2.0`, its
false-positive flag is true only when the assigned threshold exceeds `2.0`
— hence false for every threshold `≤ 2`, in particular for any threshold
within the constructor-asserted bound `maxThreshold ≤ 2.0`. -/
theorem C10_sentinel_sample (c : ResignThresholdCalculator)
    (request : Request) (result : Result)
    (h1 : result.never_resign = true)
    (h2 : ∀ i, i < result.values.length →
      i % 2 ≠ (if 0 < result.reward then 0 else 1)) :
    ∃ item : NRItem,
      (c.feed request result).winnerMinValues.getLast? = some item ∧
      item.minValue = 2 ∧
      (item.fp = true ↔ 2 < request.resign_thres) ∧
      (request.resign_thres ≤ 2 → item.fp = false) := by
  have hempty : winnerEntries (decide (0 < result.reward)) result.values = [] := by
    rw [List.eq_nil_iff_forall_not_mem]
    intro x hx
    obtain ⟨i, hi, hmod, _⟩ := (mem_winnerEntries _ _ x).mp hx
    have := h2 i hi
    rcases h0 : decide (0 < result.reward) with _ | _ <;> rw [h0] at hmod
    · rw [if_neg (by simpa using of_decide_eq_false h0)] at this
      exact this hmod
    · rw [if_pos (of_decide_eq_true h0)] at this
      exact this hmod
  unfold ResignThresholdCalculator.feed
  dsimp only
  rw [h1]
  simp only [Bool.not_true, Bool.false_eq_true, if_false]
  unfold ResignThresholdCalculator.feedWinnerMinvalue
  rcases hev : ResignThresholdCalculator.evictWhileFull c.histSize
    c.winnerMinValues (c.nr_stats.feed result.reward) with ⟨q', st'⟩
  have hminv : (mkNRItem request result).minValue = 2 := by
    simp [mkNRItem, hempty]
  refine ⟨mkNRItem request result, by simp, hminv, ?_, ?_⟩
  · simp [mkNRItem, hempty]
  · intro hle
    simp only [mkNRItem, hempty, List.foldl_nil, decide_eq_false_iff_not]
    exact fun hgt => absurd hle (not_le.mpr hgt)

/-- Closed witness for **C10**: a white win with a single (black-indexed)
value entry, fed to a fresh calculator with `resign_thres = 1/10 ≤ 2`:
the inserted sample has the sentinel minimum and a false `fp` flag. -/
theorem C10_sentinel_witness :
    ∃ item : NRItem,
      (((ResignThresholdCalculator.create 10 (1 / 2) (1 / 10) 0 1).feed
          testRequest testResultWhite).winnerMinValues.getLast? =
        some item) ∧
      item.minValue = 2 ∧
      (item.fp = true ↔ 2 < testRequest.resign_thres) ∧
      (testRequest.resign_thres ≤ 2 → item.fp = false) :=
  C10_sentinel_sample (ResignThresholdCalculator.create 10 (1 / 2) (1 / 10) 0 1)
    testRequest testResultWhite (by decide) (by decide)

/-- **C7**: the controller's `needWaitForMoreSample(requestedVersion)`
returns `VERSION_OLD` for every requested version below the active one,
`VERSION_INVALID` when (the version is not old and) no record exists for
the active version, and otherwise the active record's sufficiency answer;
a record (with the reachable nonnegative weight-update counter) needs more
samples exactly when an initial gate is configured and either
`counter < initial`, or `counter` has reached `initial` but is still below
`initial + update * weightUpdateCount`; `notifyWeightUpdate` increments
the weight-update counter; with `initial = 100, update = 50` the gate is
`counter < 100` before any weight update and `counter < 150` after one. -/
theorem C7_needWaitForMoreSample_spec (s : SelfPlaySubCtrl) (v : ℤ) :
    (v < s.curr_ver →
      s.needWaitForMoreSample v = CtrlResult.VERSION_OLD) ∧
    (¬v < s.curr_ver → s.find_or_null s.curr_ver = none →
      s.needWaitForMoreSample v = CtrlResult.VERSION_INVALID) ∧
    (∀ r, ¬v < s.curr_ver → s.find_or_null s.curr_ver = some r →
      s.needWaitForMoreSample v =
        (if r.needWaitForMoreSample then CtrlResult.INSUFFICIENT_SAMPLE
         else CtrlResult.SUFFICIENT_SAMPLE)) ∧
    (∀ r : SelfPlayRecord, 0 ≤ r.num_weight_update →
      (r.needWaitForMoreSample = true ↔
        0 < r.options.selfplay_init_num ∧
          (r.counter < r.options.selfplay_init_num ∨
            (r.options.selfplay_init_num ≤ r.counter ∧
              r.counter < r.options.selfplay_init_num +
                r.options.selfplay_update_num * r.num_weight_update)))) ∧
    (∀ r : SelfPlayRecord, r.notifyWeightUpdate.num_weight_update =
      r.num_weight_update + 1) ∧
    (∀ r : SelfPlayRecord, r.options.selfplay_init_num = 100 →
      r.options.selfplay_update_num = 50 →
      ((r.num_weight_update = 0 →
        (r.needWaitForMoreSample = true ↔ r.counter < 100)) ∧
       (r.num_weight_update = 1 →
        (r.needWaitForMoreSample = true ↔ r.counter < 150)))) := by
  have hrec : ∀ r : SelfPlayRecord, 0 ≤ r.num_weight_update →
      (r.needWaitForMoreSample = true ↔
        0 < r.options.selfplay_init_num ∧
          (r.counter < r.options.selfplay_init_num ∨
            (r.options.selfplay_init_num ≤ r.counter ∧
              r.counter < r.options.selfplay_init_num +
                r.options.selfplay_update_num * r.num_weight_update))) := by
    intro r hwuc
    unfold SelfPlayRecord.needWaitForMoreSample
    split_ifs with h1 h2 h3
    · simp only [Bool.false_eq_true, false_iff]
      omega
    · simp only [true_iff]
      omega
    · have hprod : r.options.selfplay_update_num * r.num_weight_update ≤ 0 :=
        mul_nonpos_iff.mpr (Or.inr ⟨h3, hwuc⟩)
      simp only [Bool.false_eq_true, false_iff]
      omega
    · simp only [decide_eq_true_eq]
      omega
  refine ⟨fun h => ?_, fun h hnone => ?_, fun r h hsome => ?_, hrec,
    fun r => rfl, fun r h100 h50 => ⟨fun h0 => ?_, fun h1 => ?_⟩⟩
  · unfold SelfPlaySubCtrl.needWaitForMoreSample
    rw [if_pos h]
  · unfold SelfPlaySubCtrl.needWaitForMoreSample
    rw [if_neg h]
    simp only [SelfPlaySubCtrl.find_or_null] at hnone ⊢
    rw [hnone]
  · unfold SelfPlaySubCtrl.needWaitForMoreSample
    rw [if_neg h]
    simp only [SelfPlaySubCtrl.find_or_null] at hsome ⊢
    rw [hsome]
  · rw [hrec r (by omega), h100, h50, h0]
    omega
  · rw [hrec r (by omega), h100, h50, h1]
    omega

/-- Closed witness for **C7**: on `testCtrl6` (active version 0, record at
6 episodes) version `-1` is old; and a record with the example schedule at
`counter = 100` after one weight update still needs more samples. -/
theorem C7_needWaitForMoreSample_witness :
    testCtrl6.needWaitForMoreSample (-1) = CtrlResult.VERSION_OLD ∧
    ({ SelfPlayRecord.create 0 testOptions with
        counter := 100, num_weight_update := 1 }
      : SelfPlayRecord).needWaitForMoreSample = true :=
  ⟨(C7_needWaitForMoreSample_spec testCtrl6 (-1)).1 (by decide),
    (((C7_needWaitForMoreSample_spec testCtrl6 (-1)).2.2.2.2.2
        { SelfPlayRecord.create 0 testOptions with
            counter := 100, num_weight_update := 1 } rfl rfl).2
      rfl).mpr (by decide)⟩

/-- **C8**: every controller `feed(request, result, record)` feeds the
calculator first, unconditionally, whatever the later outcome; it then
returns `NOT_SELFPLAY` for a request not tagged self-play,
`VERSION_MISMATCH` when the request's version differs from the active one
(the record map is untouched — the result is rejected, not queued),
`NOT_REQUESTED` when no record exists for the active version, and
otherwise routes the result to the matching record, runs its checkpoint
check, and returns `FEEDED` — four distinguishable result codes of a total
function. -/
theorem C8_feed_spec (s : SelfPlaySubCtrl) (request : Request)
    (result : Result) (rec : Record) :
    (s.feed request result rec).1.resignThresholdCalculator =
      s.resignThresholdCalculator.feed request result ∧
    (request.is_selfplay = false →
      (s.feed request result rec).2 = FeedResult.NOT_SELFPLAY ∧
      (s.feed request result rec).1.perfs = s.perfs) ∧
    (request.is_selfplay = true → s.curr_ver ≠ request.black_ver →
      (s.feed request result rec).2 = FeedResult.VERSION_MISMATCH ∧
      (s.feed request result rec).1.perfs = s.perfs) ∧
    (request.is_selfplay = true → s.curr_ver = request.black_ver →
      s.find_or_null s.curr_ver = none →
      (s.feed request result rec).2 = FeedResult.NOT_REQUESTED ∧
      (s.feed request result rec).1.perfs = s.perfs) ∧
    (∀ r, request.is_selfplay = true → s.curr_ver = request.black_ver →
      s.find_or_null s.curr_ver = some r →
      (s.feed request result rec).2 = FeedResult.FEEDED ∧
      (s.feed request result rec).1.find_or_null s.curr_ver =
        some ((r.feed result rec).checkAndSave).1 ∧
      (∀ w, w ≠ s.curr_ver →
        (s.feed request result rec).1.find_or_null w = s.find_or_null w)) := by
  refine ⟨?_, fun hsp => ?_, fun hsp hne => ?_, fun hsp heq hnone => ?_,
    fun r hsp heq hsome => ?_⟩
  · unfold SelfPlaySubCtrl.feed
    dsimp only
    split
    · rfl
    · split
      · rfl
      · rcases hcur : s.find_or_null request.black_ver with _ | rc
        · simp only [SelfPlaySubCtrl.find_or_null] at hcur
          simp only [SelfPlaySubCtrl.find_or_null, hcur]
        · simp only [SelfPlaySubCtrl.find_or_null] at hcur
          simp only [SelfPlaySubCtrl.find_or_null, hcur]
          rfl
  · unfold SelfPlaySubCtrl.feed
    rw [hsp]
    exact ⟨rfl, rfl⟩
  · unfold SelfPlaySubCtrl.feed
    rw [hsp]
    dsimp only
    rw [if_neg (by simp), if_pos hne]
    exact ⟨by trivial, by trivial⟩
  · unfold SelfPlaySubCtrl.feed
    rw [hsp]
    dsimp only
    rw [if_neg (by simp), if_neg (by simpa using heq)]
    simp only [SelfPlaySubCtrl.find_or_null] at hnone
    rw [heq] at hnone
    simp only [SelfPlaySubCtrl.find_or_null, hnone]
    exact ⟨by trivial, by trivial⟩
  · unfold SelfPlaySubCtrl.feed
    rw [hsp]
    dsimp only
    rw [if_neg (by simp), if_neg (by simpa using heq)]
    simp only [SelfPlaySubCtrl.find_or_null] at hsome
    rw [heq] at hsome
    simp only [SelfPlaySubCtrl.find_or_null, hsome]
    refine ⟨by trivial, ?_, ?_⟩
    · simp [SelfPlaySubCtrl.setRecord, SelfPlaySubCtrl.find_or_null, heq]
    · intro w hw
      rw [heq] at hw
      simp [SelfPlaySubCtrl.setRecord, SelfPlaySubCtrl.find_or_null, hw]

/-- Closed witness for **C8**: on `testCtrl6` a non-self-play request is
rejected with `NOT_SELFPLAY`, a version-5 request with `VERSION_MISMATCH`,
and the matching request is routed and `FEEDED`. -/
theorem C8_feed_witness :
    ((testCtrl6.feed { testRequest with is_selfplay := false } testResult
        7).2 = FeedResult.NOT_SELFPLAY) ∧
    ((testCtrl6.feed { testRequest with black_ver := 5 } testResult 7).2 =
      FeedResult.VERSION_MISMATCH) ∧
    ((testCtrl6.feed { testRequest with black_ver := 5 } testResult
        7).1.perfs = testCtrl6.perfs) ∧
    ((testCtrl6.feed testRequest testResult 7).2 = FeedResult.FEEDED) :=
  ⟨((C8_feed_spec testCtrl6 { testRequest with is_selfplay := false }
      testResult 7).2.1 rfl).1,
    ((C8_feed_spec testCtrl6 { testRequest with black_ver := 5 } testResult
      7).2.2.1 rfl (by decide)).1,
    ((C8_feed_spec testCtrl6 { testRequest with black_ver := 5 } testResult
      7).2.2.1 rfl (by decide)).2,
    by
      rcases h : testCtrl6.find_or_null testCtrl6.curr_ver with _ | r
      · exact absurd h (by decide)
      · exact ((C8_feed_spec testCtrl6 testRequest testResult 7).2.2.2.2 r
          rfl (by decide) h).1⟩

/-- The do-while fill loop blocks unless the queue holds at least the
missing number of messages, and otherwise consumes exactly that many,
leaving the cursor at the buffer count and the buffers unchanged in
number. -/
theorem fillLoop_spec : ∀ (q : List String) (s : SharedMemRemote),
    s.q = q → s.next_remote_smem < s.remote_smem.length →
    (s.q.length < s.remote_smem.length - s.next_remote_smem →
      SharedMemRemote.fillLoop s = none) ∧
    (s.remote_smem.length - s.next_remote_smem ≤ s.q.length →
      ∃ s', SharedMemRemote.fillLoop s = some s' ∧
        s'.q = s.q.drop (s.remote_smem.length - s.next_remote_smem) ∧
        s'.next_remote_smem = s.remote_smem.length ∧
        s'.remote_smem.length = s.remote_smem.length) := by
  intro q
  induction q with
  | nil =>
    intro s hq hlt
    constructor
    · intro _
      rw [SharedMemRemote.fillLoop]
      split
      · rfl
      · rename_i msg rest heq
        rw [hq] at heq
        cases heq
    · intro hge
      rw [hq] at hge
      simp only [List.length_nil] at hge
      omega
  | cons msg rest ih =>
    intro s hq hlt
    obtain ⟨mode, bs, rs, nx, qq⟩ := s
    simp only at hq hlt ⊢
    subst hq
    have hunfold :
        SharedMemRemote.fillLoop ⟨mode, bs, rs, nx, msg :: rest⟩ =
          if nx + 1 < (rs.set nx (some msg)).length then
            SharedMemRemote.fillLoop
              ⟨mode, bs, rs.set nx (some msg), nx + 1, rest⟩
          else some ⟨mode, bs, rs.set nx (some msg), nx + 1, rest⟩ := by
      rw [SharedMemRemote.fillLoop]
    by_cases hcont : nx + 1 < rs.length
    · obtain ⟨ihblock, ihdone⟩ :=
        ih ⟨mode, bs, rs.set nx (some msg), nx + 1, rest⟩ rfl
          (by simpa using hcont)
      constructor
      · intro hshort
        simp only [List.length_cons] at hshort
        rw [hunfold, if_pos (by simpa using hcont)]
        apply ihblock
        simp only [List.length_set]
        omega
      · intro hge
        simp only [List.length_cons] at hge
        obtain ⟨s2, he1, he2, he3, he4⟩ := ihdone (by
          simp only [List.length_set]
          omega)
        simp only [List.length_set] at he2 he3 he4
        refine ⟨s2, ?_, ?_, he3, he4⟩
        · rw [hunfold, if_pos (by simpa using hcont)]
          exact he1
        · rw [he2]
          have : rs.length - nx = (rs.length - (nx + 1)) + 1 := by omega
          rw [this, List.drop_succ_cons]
    · have hstop : ¬nx + 1 < (rs.set nx (some msg)).length := by
        simpa using hcont
      have hc1 : nx + 1 = rs.length := by omega
      constructor
      · intro hshort
        simp only [List.length_cons] at hshort
        omega
      · intro _
        refine ⟨⟨mode, bs, rs.set nx (some msg), nx + 1, rest⟩, ?_, ?_, ?_, ?_⟩
        · rw [hunfold, if_neg hstop]
        · have : rs.length - nx = 1 := by omega
          simp only [this, List.drop_one]
          rfl
        · simpa using hc1
        · simp

/-- **C9**: a slot whose cursor sits at zero (as it does between cycles)
with `N ≥ 1` configured buffers completes `waitBatchFillMem` only when at
least `N` pushed deliveries are queued — with fewer than `N` it stays
blocked — and a completed cycle consumes exactly `N` deliveries and resets
the cursor to zero; `push` appends one delivery to the queue, and the
constructor configures `N = batchSize` buffers in entry mode and one in
whole-batch mode, with the cursor at zero. -/
theorem C9_waitBatchFillMem_spec (s : SharedMemRemote)
    (h0 : s.next_remote_smem = 0) (hN : 1 ≤ s.remote_smem.length) :
    (s.q.length < s.remote_smem.length → s.waitBatchFillMem = none) ∧
    (s.remote_smem.length ≤ s.q.length →
      ∃ s', s.waitBatchFillMem = some s' ∧
        s'.next_remote_smem = 0 ∧
        s'.q = s.q.drop s.remote_smem.length ∧
        s'.q.length + s.remote_smem.length = s.q.length ∧
        s'.remote_smem.length = s.remote_smem.length) ∧
    (∀ msg, (s.push msg).q = s.q ++ [msg] ∧
      (s.push msg).remote_smem = s.remote_smem ∧
      (s.push msg).next_remote_smem = s.next_remote_smem) ∧
    (∀ n : ℕ,
      (SharedMemRemote.create SMMode.RECV_ENTRY n).remote_smem.length = n ∧
      (SharedMemRemote.create SMMode.RECV_SMEM n).remote_smem.length = 1 ∧
      (SharedMemRemote.create SMMode.RECV_ENTRY n).next_remote_smem = 0 ∧
      (SharedMemRemote.create SMMode.RECV_SMEM n).next_remote_smem = 0) := by
  obtain ⟨hblock, hdone⟩ := fillLoop_spec s.q s rfl (by omega)
  rw [h0, Nat.sub_zero] at hblock hdone
  refine ⟨?_, ?_, fun msg => ⟨rfl, rfl, rfl⟩,
    fun n => ⟨by simp [SharedMemRemote.create], rfl, rfl, rfl⟩⟩
  · intro hshort
    unfold SharedMemRemote.waitBatchFillMem
    rw [hblock hshort]
    rfl
  · intro hge
    obtain ⟨s', he1, he2, he3, he4⟩ := hdone hge
    refine ⟨{ s' with next_remote_smem := 0 }, ?_, rfl, he2, ?_, he4⟩
    · unfold SharedMemRemote.waitBatchFillMem
      rw [he1]
      rfl
    · rw [he2]
      simp only [List.length_drop]
      omega

/-- Closed witness for **C9**: a 3-entry slot with two queued deliveries
stays blocked; after a third it completes, consuming all three and
resetting the cursor. -/
theorem C9_waitBatchFillMem_witness :
    ((((SharedMemRemote.create SMMode.RECV_ENTRY 3).push "a").push
        "b").waitBatchFillMem = none) ∧
    ∃ s', (((((SharedMemRemote.create SMMode.RECV_ENTRY 3).push "a").push
        "b").push "c").waitBatchFillMem = some s') ∧
      s'.next_remote_smem = 0 ∧ s'.q = [] :=
  ⟨(C9_waitBatchFillMem_spec _ rfl (by decide)).1 (by decide),
    by
      obtain ⟨s', h1, h2, h3, _, _⟩ :=
        (C9_waitBatchFillMem_spec
          ((((SharedMemRemote.create SMMode.RECV_ENTRY 3).push "a").push
            "b").push "c") rfl (by decide)).2.1 (by decide)
      exact ⟨s', h1, h2, by simpa using h3⟩⟩
